import Mathlib

/-!
Verification development for the local-story-weaver daily narrative pipeline.

Shallow embedding of the backend code:
* `backend/app/services/news_service.py` — RSS filtering/normalisation
  (`_parse_rss_feed`), upsert (`_upsert_news_item`), ingestion driver
  (`fetch_and_update_ipswich_news`), temporal window selection
  (`get_news_for_date`, `_get_recently_used_news_ids`,
  `_get_article_date_from_url`, `get_news_items_by_ids`).
* `backend/app/api/v1/routes_story.py` — generator selection
  (`get_story_generator`) and the chapter-generation endpoint
  (`generate_today_story`).
* `backend/app/core/config.py` — the configuration fields the above read.

Calendar dates are triples of numerals; timestamps pair a date with a
minute-of-day.  The database is modelled as an explicit list of records,
SQL order-by as an executable insertion sort, and the commit/rollback of a
feed pass as an explicit outcome parameter.
-/

namespace StoryWeaver

/-! ### Calendar dates (Python `datetime.date` restricted to what the code uses) -/

/-- A calendar date, `year-month-day`. -/
structure Date where
  year : Nat
  month : Nat
  day : Nat
deriving DecidableEq, Repr

/-- Gregorian leap-year rule (as in Python's `datetime`). -/
def isLeap (y : Nat) : Bool :=
  (y % 4 == 0 && y % 100 != 0) || y % 400 == 0

/-- Number of days in a month of a given year. -/
def daysInMonth (y m : Nat) : Nat :=
  if m = 2 then (if isLeap y then 29 else 28)
  else if m = 4 ∨ m = 6 ∨ m = 9 ∨ m = 11 then 30
  else 31

/-- Python `date(year, month, day)`: `some` on a valid calendar date,
`none` when the constructor would raise `ValueError`. -/
def mkValidDate (y m d : Nat) : Option Date :=
  if 1 ≤ y ∧ 1 ≤ m ∧ m ≤ 12 ∧ 1 ≤ d ∧ d ≤ daysInMonth y m then some ⟨y, m, d⟩
  else none

/-- `d - timedelta(days=1)`. -/
def prevDay (dt : Date) : Date :=
  if 1 < dt.day then ⟨dt.year, dt.month, dt.day - 1⟩
  else if 1 < dt.month then ⟨dt.year, dt.month - 1, daysInMonth dt.year (dt.month - 1)⟩
  else ⟨dt.year - 1, 12, 31⟩

/-- `d - timedelta(days=n)`. -/
def subDays (dt : Date) : Nat → Date
  | 0 => dt
  | n + 1 => subDays (prevDay dt) n

/-- Strict chronological order on dates (lexicographic year/month/day). -/
def dateLT (a b : Date) : Bool :=
  if a.year < b.year then true
  else if b.year < a.year then false
  else if a.month < b.month then true
  else if b.month < a.month then false
  else decide (a.day < b.day)

/-- Non-strict chronological order on dates. -/
def dateLE (a b : Date) : Bool :=
  dateLT a b || a == b

/-- A timestamp: a calendar date plus a minute-of-day (enough structure for
the comparisons and equalities the code performs on `datetime` values). -/
structure DateTime where
  date : Date
  minute : Nat
deriving DecidableEq, Repr

/-- Non-strict chronological order on timestamps. -/
def dtLE (a b : DateTime) : Bool :=
  dateLT a.date b.date || (a.date == b.date && a.minute ≤ b.minute)

/-! ### String helpers used by the filter -/

/-- Does the first list occur at the head of the second? -/
def startsWith : List Char → List Char → Bool
  | [], _ => true
  | _ :: _, [] => false
  | a :: as, b :: bs => a == b && startsWith as bs

/-- Python's `needle in haystack` substring test. -/
def containsSub (needle : List Char) : List Char → Bool
  | [] => needle.isEmpty
  | c :: rest => startsWith needle (c :: rest) || containsSub needle rest

/-- The characters Python's `\s` matches (ASCII range). -/
def isWsChar (c : Char) : Bool :=
  c == ' ' || c == '\t' || c == '\n' || c == '\r' || c.toNat == 11 || c.toNat == 12

/-- Worker for `collapseWs`; the flag records whether the previous character
belonged to a whitespace run already emitted as a single space. -/
def collapseWsGo (prevWs : Bool) : List Char → List Char
  | [] => []
  | c :: rest =>
    if isWsChar c then
      if prevWs then collapseWsGo true rest
      else ' ' :: collapseWsGo true rest
    else c :: collapseWsGo false rest

/-- `re.sub(r'\s+', ' ', s)`: every maximal whitespace run becomes one space. -/
def collapseWs (cs : List Char) : List Char := collapseWsGo false cs

/-- Python `str.lower()` (character-wise lowercasing). -/
def lowerStr (s : String) : String := (s.toList.map Char.toLower).asString

/-- `description[:497] + "..." if len(description) > 500` (news_service.py:143-144). -/
def truncateDesc (s : String) : String :=
  if 500 < s.length then (s.toList.take 497).asString ++ "..." else s

/-- The description normalisation of the filter (news_service.py:134-144):
`""` when the tag is missing, otherwise the extracted text with whitespace
runs collapsed and the 500-character truncation applied. -/
def cleanDescription : Option String → String
  | none => ""
  | some t => truncateDesc (collapseWs t.toList).asString

/-! ### Link-embedded date extraction (news_service.py:152-163 and 215-229) -/

/-- Numeric value of two decimal digit characters. -/
def digit2 (a b : Char) : Nat := (a.toNat - 48) * 10 + (b.toNat - 48)

/-- Numeric value of four decimal digit characters. -/
def digit4 (a b c d : Char) : Nat :=
  ((a.toNat - 48) * 10 + (b.toNat - 48)) * 100 + digit2 c d

/-- Try to match `/(\d{4})/(\d{2})/(\d{2})/` at the head of the character list. -/
def matchSlashDate : List Char → Option (Nat × Nat × Nat)
  | '/' :: y1 :: y2 :: y3 :: y4 :: '/' :: m1 :: m2 :: '/' :: d1 :: d2 :: '/' :: _ =>
    if y1.isDigit && y2.isDigit && y3.isDigit && y4.isDigit &&
       m1.isDigit && m2.isDigit && d1.isDigit && d2.isDigit then
      some (digit4 y1 y2 y3 y4, digit2 m1 m2, digit2 d1 d2)
    else none
  | _ => none

/-- `re.search(r'/(\d{4})/(\d{2})/(\d{2})/', s)`: leftmost match wins. -/
def findUrlDate : List Char → Option (Nat × Nat × Nat)
  | [] => none
  | c :: rest =>
    match matchSlashDate (c :: rest) with
    | some r => some r
    | none => findUrlDate rest

/-- `NewsService._get_article_date_from_url`: the `YYYY/MM/DD` path segment of
the URL as a valid date, if any (an invalid triple such as month 13 yields
`none`, exactly as the `date(...)` constructor raising does). -/
def articleDateFromUrl (url : String) : Option Date :=
  match findUrlDate url.toList with
  | some (y, m, d) => mkValidDate y m d
  | none => none

/-! ### Feed items and the filter/normaliser (`NewsService._parse_rss_feed`) -/

/-- One raw `<item>` of the RSS document, with the text of each child tag
already extracted (the XML parsing itself is external to the service logic):
`title` is `""` when the tag is missing, `link`/`description`/`author` are
`none` when the tag is missing, and `pubDate` is the parsed feed timestamp
(`none` when the tag is missing or `parsedate_to_datetime` fails on it). -/
structure RawItem where
  title : String
  categories : List String
  link : Option String
  description : Option String
  author : Option String
  pubDate : Option DateTime
deriving DecidableEq, Repr

/-- One entry of the article-data dictionary emitted by the filter. -/
structure Article where
  headline : String
  summary : String
  article_url : String
  author : Option String
  published_at : Option DateTime
  category_label : String
deriving DecidableEq, Repr

/-- The title keywords that cause an article to be skipped (news_service.py:106-116). -/
def skip_keywords : List String :=
  ["obituary", "obituaries", "death", "dies", "died",
   "memorial", "funeral", "passed away", "in memoriam",
   "police log", "arrest", "charged with", "fatal",
   "campaign", "election", "candidate", "endorsement", "endorses",
   "democrat", "republican", "congressional", "senator", "governor",
   "ballot", "vote", "voting", "primary", "caucus", "political"]

/-- The category tags that cause an article to be skipped (news_service.py:120-123). -/
def skip_categories : List String :=
  ["obituaries", "police", "crime", "politics", "election", "elections"]

/-- The derived publish timestamp: the link-embedded `YYYY/MM/DD` segment (at
noon) when it parses to a valid date, otherwise the feed's own `pubDate`
(news_service.py:152-174). -/
def derivedPub (link : String) (pubDate : Option DateTime) : Option DateTime :=
  match articleDateFromUrl link with
  | some dt => some ⟨dt, 720⟩
  | none => pubDate

/-- The loop body of `NewsService._parse_rss_feed` for one `<item>`:
`some` article-data dictionary if the item is accepted, `none` if any
filter rejects it.  `today` is `date.today()` at processing time. -/
def parseItem (today : Date) (it : RawItem) : Option Article :=
  if !((it.categories.map lowerStr).contains "ipswich" ||
       containsSub "ipswich".toList (lowerStr it.title).toList) then
    none
  else if skip_keywords.any (fun k => containsSub k.toList (lowerStr it.title).toList) then
    none
  else if skip_categories.any (fun k => (it.categories.map lowerStr).contains k) then
    none
  else
    match it.link with
    | none => none
    | some link =>
      if link = "" then none
      else
        match derivedPub link it.pubDate with
        | none => none
        | some p =>
          if dateLT p.date (prevDay today) then none
          else some
            { headline := (it.title.toList.take 500).asString
              summary :=
                if cleanDescription it.description = "" then it.title
                else cleanDescription it.description
              article_url := link
              author :=
                match it.author with
                | none => none
                | some s => if s = "" then none else some ((s.toList.take 200).asString)
              published_at := some p
              category_label := "Ipswich" }

/-- `NewsService._parse_rss_feed`: filter every `<item>` in document order,
then keep the first 10 accepted (`articles[:10]`). -/
def parse_rss_feed (today : Date) (items : List RawItem) : List Article :=
  (items.filterMap (parseItem today)).take 10

/-! ### Persisted news records and the upsert (`NewsService._upsert_news_item`) -/

/-- A persisted `news_items` row. -/
structure NewsItem where
  id : Nat
  headline : String
  summary : String
  article_url : String
  author : Option String
  category_label : String
  published_at : Option DateTime
  fetched_at : DateTime
deriving DecidableEq, Repr

/-- A `NewsItem` with its `fetched_at` column forgotten: two stores with equal
stripped views differ at most in fetch timestamps. -/
structure StrippedItem where
  id : Nat
  headline : String
  summary : String
  article_url : String
  author : Option String
  category_label : String
  published_at : Option DateTime
deriving DecidableEq, Repr

/-- Forget the `fetched_at` column. -/
def NewsItem.strip (x : NewsItem) : StrippedItem :=
  ⟨x.id, x.headline, x.summary, x.article_url, x.author, x.category_label, x.published_at⟩

/-- The rows matching `NewsItem.article_url == url`
(the `select ... where` of the upsert). -/
def findByUrl (url : String) (store : List NewsItem) : List NewsItem :=
  store.filter (fun x => x.article_url = url)

/-- The in-place update branch of `_upsert_news_item` (news_service.py:328-337):
headline and summary always overwritten; author only when the incoming value
is truthy (present and non-empty); publish time only when present; fetch
timestamp set to `now` (`datetime.utcnow()`). -/
def mergeItem (now : DateTime) (a : Article) (x : NewsItem) : NewsItem :=
  { x with
    headline := a.headline
    summary := a.summary
    author := match a.author with
      | some v => if v = "" then x.author else some v
      | none => x.author
    published_at := match a.published_at with
      | some p => some p
      | none => x.published_at
    fetched_at := now }

/-- The same field update on the stripped view. -/
def stripMerge (a : Article) (s : StrippedItem) : StrippedItem :=
  { s with
    headline := a.headline
    summary := a.summary
    author := match a.author with
      | some v => if v = "" then s.author else some v
      | none => s.author
    published_at := match a.published_at with
      | some p => some p
      | none => s.published_at }

/-- The create branch of `_upsert_news_item` (news_service.py:339-351):
a fresh row with the next surrogate id and `fetched_at = now`. -/
def mkNewsItem (now : DateTime) (a : Article) (n : Nat) : NewsItem :=
  ⟨n, a.headline, a.summary, a.article_url, a.author, a.category_label,
   a.published_at, now⟩

/-- The store after the in-place update: the row carrying the article's URL
is merged, every other row is untouched. -/
def replaceMerged (now : DateTime) (a : Article) (store : List NewsItem) : List NewsItem :=
  store.map (fun y => if y.article_url = a.article_url then mergeItem now a y else y)

/-- `NewsService._upsert_news_item` over an explicit store.  Returns the
returned item (`none` when the internal `except` swallowed an error, which in
this model only the multiple-rows case of `scalar_one_or_none` triggers), the
updated store, and the next surrogate id. -/
def upsertOne (now : DateTime) (a : Article) (store : List NewsItem) (nextId : Nat) :
    Option NewsItem × List NewsItem × Nat :=
  match findByUrl a.article_url store with
  | [] =>
    let item := mkNewsItem now a nextId
    (some item, store ++ [item], nextId + 1)
  | [x] =>
    (some (mergeItem now a x), replaceMerged now a store, nextId)
  | _ => (none, store, nextId)

/-- The upsert loop of `fetch_and_update_ipswich_news` (news_service.py:51-55):
each article is upserted against the store left by the previous one (the
`flush` makes freshly created rows visible), collecting the non-`None`
results. -/
def ingestList (now : DateTime) :
    List Article → List NewsItem → Nat → List NewsItem × List NewsItem × Nat
  | [], store, n => ([], store, n)
  | a :: rest, store, n =>
    let u := upsertOne now a store n
    let r := ingestList now rest u.2.1 u.2.2
    (match u.1 with
     | some it => it :: r.1
     | none => r.1,
     r.2.1, r.2.2)

/-- `NewsService.fetch_and_update_ipswich_news`.  `fetched` is the outcome of
`_fetch_rss` (`none` for an HTTP error, unreachable feed, timeout, or empty
body — all falsy).  `passFails` models an exception raised later in the pass
(parsing, upserting, or the final `commit` itself): the surrounding
`except` rolls the whole batch back to the pre-call store and returns `[]`.
On success the batch is committed. -/
def fetch_and_update (fetched : Option (List RawItem)) (passFails : Bool)
    (today : Date) (now : DateTime) (store : List NewsItem) (nextId : Nat) :
    List NewsItem × List NewsItem × Nat :=
  match fetched with
  | none => ([], store, nextId)
  | some feedItems =>
    let articles := parse_rss_feed today feedItems
    let r := ingestList now articles store nextId
    if passFails then ([], store, nextId) else r

/-! ### Chapters and the temporal window selector -/

/-- A persisted `story_chapters` row. -/
structure StoryChapter where
  id : Nat
  chapter_date : Date
  title : String
  body : String
  weather_summary : String
  tide_state : String
  season : String
  month_name : String
  day_of_week : String
  used_news_item_ids : List Nat
  created_at : Nat
deriving DecidableEq, Repr

/-- `NewsService._get_recently_used_news_ids`: every id listed by a chapter
whose `chapter_date` is on or after `today - days` (membership is what the
Python `set` provides and all callers use). -/
def recentlyUsedIds (chapters : List StoryChapter) (today : Date) (days : Nat) : List Nat :=
  let cutoff := subDays today days
  (chapters.filter (fun c => dateLE cutoff c.chapter_date)).flatMap
    (fun c => c.used_news_item_ids)

/-- Sort key for `order_by(desc(NewsItem.published_at))`: `a` may come before
`b`.  `NULL` publish times sort first under Postgres `DESC` ordering. -/
def pubGE : Option DateTime → Option DateTime → Bool
  | none, _ => true
  | some _, none => false
  | some a, some b => dtLE b a

/-- Insert into a descending-by-publish-time list. -/
def insertPubDesc (x : NewsItem) : List NewsItem → List NewsItem
  | [] => [x]
  | y :: ys =>
    if pubGE x.published_at y.published_at then x :: y :: ys
    else y :: insertPubDesc x ys

/-- The store ordered by publish time descending (the `order_by` of the
candidate-pool query in `get_news_for_date`). -/
def sortByPubDesc : List NewsItem → List NewsItem
  | [] => []
  | x :: xs => insertPubDesc x (sortByPubDesc xs)

/-- The selection loop of `get_news_for_date` (news_service.py:265-275):
skip already-used ids, keep items whose link-derived date is the target date
or the previous day, append then break once `limit` is reached.  `cnt` is
`len(matching_items)` so far. -/
def selectLoop (used : List Nat) (target prev : Date) (limit : Nat) :
    List NewsItem → Nat → List NewsItem
  | [], _ => []
  | x :: rest, cnt =>
    if x.id ∈ used then selectLoop used target prev limit rest cnt
    else
      match articleDateFromUrl x.article_url with
      | some dd =>
        if dd = target ∨ dd = prev then
          if limit ≤ cnt + 1 then [x]
          else x :: selectLoop used target prev limit rest (cnt + 1)
        else selectLoop used target prev limit rest cnt
      | none => selectLoop used target prev limit rest cnt

/-- `NewsService.get_news_for_date`: pool = the 50 most recent rows by publish
time descending; drop ids used by chapters of the trailing 7 days; keep rows
whose link-derived date is `target` or the previous day; first `limit` of
them in pool order.  `today` is `date.today()` inside
`_get_recently_used_news_ids`. -/
def get_news_for_date (store : List NewsItem) (chapters : List StoryChapter)
    (today target : Date) (limit : Nat) : List NewsItem :=
  let used := recentlyUsedIds chapters today 7
  let pool := (sortByPubDesc store).take 50
  selectLoop used target (prevDay target) limit pool 0

/-- `NewsService.get_news_items_by_ids`: the short-circuit on an empty id
list, otherwise the rows whose id is in the list, in storage order. -/
def get_news_items_by_ids (store : List NewsItem) (ids : List Nat) : List NewsItem :=
  if ids = [] then []
  else store.filter (fun x => x.id ∈ ids)

/-! ### Generator selection (`routes_story.get_story_generator`) -/

/-- The shape of the story generator object the route builds: either the bare
`TemplateStoryGenerator` or an `LLMStoryGeneratorWithFallback` wrapping a
fallback generator. -/
inductive StoryGenerator where
  | template : StoryGenerator
  | llmWithFallback (api_key : String) (fallback : StoryGenerator) (model : String) :
      StoryGenerator
deriving DecidableEq, Repr

/-- Python truthiness of an `Optional[str]`: present and non-empty. -/
def strTruthy : Option String → Bool
  | none => false
  | some s => s ≠ ""

/-- `routes_story.get_story_generator` (routes_story.py:29-40), as a function
of the configuration fields it reads (`use_llm_for_stories`,
`anthropic_api_key`, `llm_model` of `Settings`). -/
def get_story_generator (use_llm_for_stories : Bool)
    (anthropic_api_key : Option String) (llm_model : String) : StoryGenerator :=
  if use_llm_for_stories && strTruthy anthropic_api_key then
    .llmWithFallback (anthropic_api_key.getD "") .template llm_model
  else
    .template

/-- Is the selected generator the fallback-wrapped primary? -/
def StoryGenerator.isWrapped : StoryGenerator → Bool
  | .llmWithFallback .. => true
  | .template => false

/-! ### Chapter generation (`routes_story.generate_today_story`) -/

/-- The `DayContext` value assembled by `ContextBuilder.build_context` and
consumed by the generator and the engine. -/
structure DayContext where
  target_date : Date
  weather_summary : String
  tide_state : String
  season : String
  month_name : String
  day_of_week : String
  news_items : List NewsItem
deriving Repr

/-- Zero-padded two-digit numeral. -/
def pad2 (n : Nat) : String :=
  if n < 10 then "0" ++ toString n else toString n

/-- Zero-padded four-digit numeral. -/
def pad4 (n : Nat) : String :=
  if n < 10 then "000" ++ toString n
  else if n < 100 then "00" ++ toString n
  else if n < 1000 then "0" ++ toString n
  else toString n

/-- Python `str(date)`: `YYYY-MM-DD`. -/
def dateToStr (d : Date) : String :=
  pad4 d.year ++ "-" ++ pad2 d.month ++ "-" ++ pad2 d.day

/-- The `GenerateStoryResponse` payload: success flag, message, the chapter
(the route copies its columns into `StoryChapterResponse`), and the news rows
fetched for the chapter's used ids. -/
structure GenerateStoryResponse where
  success : Bool
  message : String
  chapter : StoryChapter
  news_items : List NewsItem
deriving Repr

/-- The outcome of the endpoint: an `HTTPException` or a response body. -/
inductive RouteResult where
  | httpError (status : Nat) (detail : String) : RouteResult
  | ok (body : GenerateStoryResponse) : RouteResult
deriving Repr

/-- Modelled from the spec: `StoryEngine.generate_story_for_date` lives in
`backend/app/services/story_engine.py`, which is not among the provided
source files.  Per spec §4.5: with no chapter for the target date, run the
generator on the context and persist a new Chapter recording the ids of the
news items of that context; with `force` on an existing chapter, replace the
prior chapter's content (title/body/weather/tide/season/news-id-list) for
that date.  `gen` produces the (title, body) pair, `nextId`/`now` the new
row's surrogate id and creation time. -/
def generate_story_for_date (chapters : List StoryChapter) (ctx : DayContext)
    (target : Date) (force : Bool) (gen : DayContext → String × String)
    (nextId : Nat) (now : Nat) : StoryChapter × List StoryChapter :=
  match chapters.find? (fun c => c.chapter_date = target) with
  | some old =>
    if force then
      let tb := gen ctx
      let ch := { old with
        title := tb.1, body := tb.2,
        weather_summary := ctx.weather_summary, tide_state := ctx.tide_state,
        season := ctx.season, month_name := ctx.month_name,
        day_of_week := ctx.day_of_week,
        used_news_item_ids := ctx.news_items.map (fun n => n.id) }
      (ch, chapters.map (fun c => if c.chapter_date = target then ch else c))
    else (old, chapters)
  | none =>
    let tb := gen ctx
    let ch : StoryChapter :=
      ⟨nextId, target, tb.1, tb.2, ctx.weather_summary, ctx.tide_state,
       ctx.season, ctx.month_name, ctx.day_of_week,
       ctx.news_items.map (fun n => n.id), now⟩
    (ch, chapters ++ [ch])

/-- `routes_story.generate_today_story` (routes_story.py:189-281) over explicit
stores.  `targetQ` is the optional `target_date` query parameter, `todayDate`
is `date.today()`, `ctx` the context built for the chosen date, and
`enable_manual_generation` the feature flag of `Settings`.  Returns the
endpoint outcome and the chapter store after the call. -/
def generate_today_story (enable_manual_generation : Bool)
    (chapters : List StoryChapter) (newsStore : List NewsItem)
    (force : Bool) (targetQ : Option Date) (todayDate : Date)
    (ctx : DayContext) (gen : DayContext → String × String)
    (nextId : Nat) (now : Nat) : RouteResult × List StoryChapter :=
  if !enable_manual_generation then
    (.httpError 403 "Manual story generation is disabled", chapters)
  else
    let today := targetQ.getD todayDate
    let existing := chapters.find? (fun c => c.chapter_date = today)
    match existing with
    | some ex =>
      if !force then
        (.ok ⟨false,
              "Story already exists for " ++ dateToStr today ++
                ". Use force=true to regenerate.",
              ex,
              get_news_items_by_ids newsStore ex.used_news_item_ids⟩,
         chapters)
      else
        let r := generate_story_for_date chapters ctx today force gen nextId now
        (.ok ⟨true, "Story regenerated for " ++ dateToStr today, r.1,
              get_news_items_by_ids newsStore r.1.used_news_item_ids⟩,
         r.2)
    | none =>
      let r := generate_story_for_date chapters ctx today force gen nextId now
      (.ok ⟨true, "Story generated for " ++ dateToStr today, r.1,
            get_news_items_by_ids newsStore r.1.used_news_item_ids⟩,
       r.2)

/-! ### Derived predicates used to state the claims -/

/-- The two conditions the selection loop of `get_news_for_date` checks on a
candidate row: not already used, and link-derived date equal to the target
date or the previous day. -/
def eligible (used : List Nat) (target prev : Date) (x : NewsItem) : Bool :=
  !(decide (x.id ∈ used)) &&
    (match articleDateFromUrl x.article_url with
     | some dd => decide (dd = target) || decide (dd = prev)
     | none => false)

/-- No two rows of the store share a source URL. -/
def NodupUrls (store : List NewsItem) : Prop :=
  (store.map (fun x => x.article_url)).Nodup

/-- The store already holds the content of article `a`: exactly one row has
its URL, and re-merging `a` into that row changes nothing but the fetch
timestamp. -/
def absorbs (store : List NewsItem) (a : Article) : Prop :=
  match findByUrl a.article_url store with
  | [x] => stripMerge a x.strip = x.strip
  | _ => False

/-- The emitted candidate list is ordered most-recent-first by the derived
publish timestamps (each entry at least as recent as every later one). -/
def mostRecentFirst (l : List Article) : Prop :=
  l.Pairwise (fun a b => pubGE a.published_at b.published_at = true)

/-! ### Concrete fixtures for witnesses and counterexamples -/

/-- A source URL whose path embeds the date 2024-03-15. -/
def sampleUrl : String := "https://thelocalnews.news/2024/03/15/sample/"

/-- A persisted news row with the given id, published 2024-03-15. -/
def sampleItem (i : Nat) : NewsItem :=
  ⟨i, "h", "s", sampleUrl, none, "Ipswich", some ⟨⟨2024, 3, 15⟩, 720⟩,
   ⟨⟨2024, 3, 15⟩, 0⟩⟩

/-- A locale-relevant feed item with a link dated 2024-03-15 and a
deliberately contradictory feed `pubDate`. -/
def itemToday : RawItem :=
  ⟨"Ipswich fair opens", ["news"], some "https://thelocalnews.news/2024/03/15/some-slug/",
   some "A nice day", some "Reporter", some ⟨⟨2020, 1, 1⟩, 0⟩⟩

/-- A locale-relevant feed item with a link dated 2024-03-14. -/
def itemYesterday : RawItem :=
  ⟨"Ipswich harbor walk", ["news"], some "https://thelocalnews.news/2024/03/14/walk/",
   none, none, none⟩

/-- A locale-relevant feed item whose title matches the obituary keyword. -/
def itemObituary : RawItem :=
  ⟨"Ipswich obituary: remembering a neighbor", ["news"],
   some "https://thelocalnews.news/2024/03/15/obit/", none, none, none⟩

/-- A pre-existing row for `sampleUrl` carrying an author. -/
def storedWithAuthor : NewsItem :=
  ⟨3, "old headline", "old summary", sampleUrl, some "Alice", "Ipswich",
   some ⟨⟨2024, 3, 14⟩, 720⟩, ⟨⟨2024, 3, 14⟩, 0⟩⟩

/-- A fresh sighting of `sampleUrl` without an author. -/
def sightingNoAuthor : Article :=
  ⟨"new headline", "new summary", sampleUrl, none, some ⟨⟨2024, 3, 15⟩, 720⟩, "Ipswich"⟩

/-- A fresh sighting of `sampleUrl` carrying an author. -/
def sightingWithAuthor : Article :=
  ⟨"new headline", "new summary", sampleUrl, some "Bob", some ⟨⟨2024, 3, 15⟩, 720⟩, "Ipswich"⟩

/-- A fixed generation context for witnesses. -/
def ctx0 : DayContext :=
  ⟨⟨2024, 3, 15⟩, "clear", "high", "spring", "March", "Friday", [sampleItem 1]⟩

/-- A fixed deterministic generator for witnesses. -/
def gen0 : DayContext → String × String := fun c => ("A Day in Ipswich", c.season)

/-- A pre-existing chapter for 2024-03-15. -/
def ch0 : StoryChapter :=
  ⟨1, ⟨2024, 3, 15⟩, "t", "b", "w", "tide", "spring", "March", "Friday", [1], 0⟩

/-! ### C7: generator selection is a pure function of configuration -/

/-- C7: when the model-backed flag is set and an API key is configured
(non-empty), `get_story_generator` returns the fallback-wrapped primary —
the LLM generator wrapping the bare template generator; in every other
configuration it returns the bare template fallback. -/
theorem C7_generator_selection (u : Bool) (k : Option String) (m : String) :
    (u = true ∧ (∃ s, k = some s ∧ s ≠ "") →
      get_story_generator u k m =
        .llmWithFallback (k.getD "") .template m) ∧
    (¬(u = true ∧ ∃ s, k = some s ∧ s ≠ "") →
      get_story_generator u k m = .template) := by
  constructor
  · rintro ⟨hu, s, hk, hs⟩
    subst hu; subst hk
    simp [get_story_generator, strTruthy, hs]
  · intro h
    have hb : (u && strTruthy k) = false := by
      cases u with
      | false => rfl
      | true =>
        cases k with
        | none => rfl
        | some s =>
          by_cases hs : s = ""
          · simp [strTruthy, hs]
          · exact absurd ⟨rfl, s, rfl, hs⟩ h
    simp [get_story_generator, hb]

/-- Witness for C7 at a concrete configuration. -/
theorem C7_witness :
    get_story_generator true (some "sk-test") "claude" =
      .llmWithFallback "sk-test" .template "claude" ∧
    get_story_generator false (some "sk-test") "claude" = .template := by
  constructor
  · exact (C7_generator_selection true (some "sk-test") "claude").1
      ⟨rfl, "sk-test", rfl, by decide⟩
  · exact (C7_generator_selection false (some "sk-test") "claude").2
      (by rintro ⟨h, -⟩; cases h)

/-! ### C8: transient fetch failure degrades to an empty result -/

/-- C8: when the feed fetch fails (HTTP error, unreachable feed, timeout —
`_fetch_rss` returns a falsy value), `fetch_and_update_ipswich_news` returns
the empty list with the store untouched; and when an exception occurs later
in the pass, the batch is rolled back to the original store and the empty
list is returned instead of propagating the fault. -/
theorem C8_fetch_failure_degrades (today : Date) (now : DateTime)
    (store : List NewsItem) (nextId : Nat) (items : List RawItem)
    (passFails : Bool) :
    fetch_and_update none passFails today now store nextId = ([], store, nextId) ∧
    fetch_and_update (some items) true today now store nextId = ([], store, nextId) := by
  constructor
  · rfl
  · simp [fetch_and_update]

/-! ### C5: output cap and ordering of a feed pass -/

/-- C5 counterexample: the filter does not re-sort by derived publish date —
a feed listing a 2024-03-14 article before a 2024-03-15 one is emitted in
that same (oldest-first) order. -/
theorem C5_counterexample :
    ¬ mostRecentFirst (parse_rss_feed ⟨2024, 3, 15⟩ [itemYesterday, itemToday]) := by
  simp only [mostRecentFirst]
  decide

/-- C5 amended: a single feed pass emits at most 10 accepted candidates, and
the emitted list is the first accepted candidates in feed-document order (a
prefix of the full accepted list), not re-sorted by publish date. -/
theorem C5_amended (today : Date) (items : List RawItem) :
    (parse_rss_feed today items).length ≤ 10 ∧
    parse_rss_feed today items <+: items.filterMap (parseItem today) := by
  exact ⟨List.length_take_le 10 (items.filterMap (parseItem today)),
         List.take_prefix 10 (items.filterMap (parseItem today))⟩

/-! ### C6: sensitive-topic exclusion rejects regardless of locale relevance -/

/-- C6: any feed item whose lowercased title contains one of the configured
skip keywords, or one of whose lowercased category tags is in the configured
skip categories, is rejected by the filter and emits no candidate — even a
locale-relevant one. -/
theorem C6_sensitive_exclusion (today : Date) (it : RawItem)
    (h : (∃ k ∈ skip_keywords, containsSub k.toList (lowerStr it.title).toList = true) ∨
         (∃ k ∈ skip_categories, (it.categories.map lowerStr).contains k = true)) :
    parseItem today it = none := by
  rcases h with ⟨k, hk, hc⟩ | ⟨k, hk, hc⟩
  · have hkw : (skip_keywords.any fun k => containsSub k.toList (lowerStr it.title).toList)
        = true := List.any_eq_true.mpr ⟨k, hk, hc⟩
    unfold parseItem
    rw [hkw]
    simp
  · have hcat : (skip_categories.any fun k => (it.categories.map lowerStr).contains k)
        = true := List.any_eq_true.mpr ⟨k, hk, hc⟩
    unfold parseItem
    rw [hcat]
    simp

/-- Witness for C6: a locale-relevant item with an obituary title is dropped. -/
theorem C6_witness : parseItem ⟨2024, 3, 15⟩ itemObituary = none :=
  C6_sensitive_exclusion ⟨2024, 3, 15⟩ itemObituary
    (Or.inl ⟨"obituary", by decide, by decide⟩)

/-! ### C4: link-embedded date wins over the feed pubDate -/

/-- C4: every emitted candidate carries the derived publish timestamp, and
derivation prefers the `YYYY/MM/DD` link segment: when the segment parses the
feed's `pubDate` is ignored, when it does not parse the `pubDate` is used,
and when neither is available the item is rejected and emits no candidate. -/
theorem C4_link_date_preferred (today : Date) (it : RawItem) :
    (∀ art, parseItem today it = some art →
       ∃ link, it.link = some link ∧
         art.published_at = derivedPub link it.pubDate ∧
         derivedPub link it.pubDate ≠ none) ∧
    (∀ link p, it.link = some link → articleDateFromUrl link = some p →
       derivedPub link it.pubDate = some ⟨p, 720⟩) ∧
    (∀ link, it.link = some link → articleDateFromUrl link = none →
       derivedPub link it.pubDate = it.pubDate) ∧
    (∀ link, it.link = some link → derivedPub link it.pubDate = none →
       parseItem today it = none) := by
  refine ⟨?_, ?_, ?_, ?_⟩
  · intro art hart
    unfold parseItem at hart
    split at hart
    · exact absurd hart (by simp)
    · split at hart
      · exact absurd hart (by simp)
      · split at hart
        · exact absurd hart (by simp)
        · split at hart
          · exact absurd hart (by simp)
          · rename_i link hlink
            split at hart
            · exact absurd hart (by simp)
            · split at hart
              · exact absurd hart (by simp)
              · rename_i p hp
                split at hart
                · exact absurd hart (by simp)
                · have harteq := Option.some.inj hart
                  subst harteq
                  refine ⟨link, hlink, ?_, ?_⟩
                  · rw [hp]
                  · rw [hp]
                    simp
  · intro link p _ hp
    unfold derivedPub
    rw [hp]
  · intro link _ hp
    unfold derivedPub
    rw [hp]
  · intro link hlink hnone
    simp [parseItem, hlink, hnone]

/-- Witness for C4: a link containing `/2024/03/15/` yields the publish
timestamp 2024-03-15 (noon) despite a contradictory feed pubDate of 2020. -/
theorem C4_witness :
    derivedPub "https://thelocalnews.news/2024/03/15/some-slug/"
        (some ⟨⟨2020, 1, 1⟩, 0⟩) = some ⟨⟨2024, 3, 15⟩, 720⟩ :=
  (C4_link_date_preferred ⟨2024, 3, 15⟩ itemToday).2.1
    "https://thelocalnews.news/2024/03/15/some-slug/" ⟨2024, 3, 15⟩ rfl (by decide)

/-! ### C10: lookup by id list -/

/-- C10: `get_news_items_by_ids` returns exactly the stored rows whose id is
in the input list (each at most once when stored ids are unique, absent ids
silently omitted), returns `[]` for the empty input, and follows storage
order rather than input order — so an ordered id list is not order-preserved
by the lookup (final conjunct). -/
theorem C10_get_by_ids (store : List NewsItem) (ids : List Nat)
    (h : (store.map (fun x => x.id)).Nodup) :
    (ids = [] → get_news_items_by_ids store ids = []) ∧
    (∀ x, x ∈ get_news_items_by_ids store ids ↔ x ∈ store ∧ x.id ∈ ids) ∧
    List.Sublist (get_news_items_by_ids store ids) store ∧
    ((get_news_items_by_ids store ids).map (fun x => x.id)).Nodup ∧
    (∃ s : List NewsItem, ∃ i : List Nat,
       (s.map (fun x => x.id)).Nodup ∧
       (get_news_items_by_ids s i).map (fun x => x.id) ≠ i) := by
  have hsub : List.Sublist (get_news_items_by_ids store ids) store := by
    by_cases hi : ids = []
    · simp [get_news_items_by_ids, hi]
    · simp only [get_news_items_by_ids, hi, if_false]
      exact List.filter_sublist store
  refine ⟨fun hi => by simp [get_news_items_by_ids, hi], ?_, hsub, ?_, ?_⟩
  · intro x
    by_cases hi : ids = []
    · subst hi
      simp [get_news_items_by_ids]
    · simp [get_news_items_by_ids, hi, List.mem_filter]
  · exact List.Nodup.sublist (hsub.map (fun x => x.id)) h
  · exact ⟨[sampleItem 1, sampleItem 2], [2, 1], by decide, by decide⟩

/-- Witness for C10 at a concrete store and id list. -/
theorem C10_witness :
    sampleItem 1 ∈ get_news_items_by_ids [sampleItem 1, sampleItem 2] [1] :=
  ((C10_get_by_ids [sampleItem 1, sampleItem 2] [1] (by decide)).2.1
      (sampleItem 1)).mpr ⟨by simp, by decide⟩

/-! ### C2: idempotent chapter generation without force -/

/-- C2 (the missing `StoryEngine.generate_story_for_date` is modelled from the
spec): with force=false an existing chapter for the chosen date is returned
unchanged in a non-error "already exists" response and no row is created;
with no existing chapter, exactly one chapter with that date is appended. -/
theorem C2_idempotent_generation (chapters : List StoryChapter)
    (newsStore : List NewsItem) (targetQ : Option Date) (todayDate : Date)
    (ctx : DayContext) (gen : DayContext → String × String) (nextId now : Nat) :
    (∀ ex, chapters.find? (fun c => c.chapter_date = targetQ.getD todayDate) = some ex →
       generate_today_story true chapters newsStore false targetQ todayDate ctx gen nextId now =
         (.ok ⟨false,
               "Story already exists for " ++ dateToStr (targetQ.getD todayDate) ++
                 ". Use force=true to regenerate.",
               ex, get_news_items_by_ids newsStore ex.used_news_item_ids⟩,
          chapters)) ∧
    (chapters.find? (fun c => c.chapter_date = targetQ.getD todayDate) = none →
       ∃ ch, generate_today_story true chapters newsStore false targetQ todayDate ctx gen
               nextId now =
           (.ok ⟨true, "Story generated for " ++ dateToStr (targetQ.getD todayDate), ch,
                 get_news_items_by_ids newsStore ch.used_news_item_ids⟩,
            chapters ++ [ch]) ∧
         ch.chapter_date = targetQ.getD todayDate ∧
         ((chapters ++ [ch]).filter
             (fun c => c.chapter_date = targetQ.getD todayDate)).length = 1) := by
  constructor
  · intro ex hex
    simp [generate_today_story, hex]
  · intro hnone
    refine ⟨⟨nextId, targetQ.getD todayDate, (gen ctx).1, (gen ctx).2, ctx.weather_summary,
             ctx.tide_state, ctx.season, ctx.month_name, ctx.day_of_week,
             ctx.news_items.map (fun n => n.id), now⟩, ?_, rfl, ?_⟩
    · simp [generate_today_story, hnone, generate_story_for_date]
    · have hfil : chapters.filter (fun c => c.chapter_date = targetQ.getD todayDate) = [] := by
        rw [List.filter_eq_nil_iff]
        intro c hc
        simpa using List.find?_eq_none.mp hnone c hc
      rw [List.filter_append, hfil]
      simp

/-- Witness for C2: creating from an empty chapter store yields exactly one
row for the date; calling again on a store that has the chapter leaves the
store unchanged. -/
theorem C2_witness :
    ((generate_today_story true [] [] false none ⟨2024, 3, 15⟩ ctx0 gen0 1 0).2.filter
        (fun c => c.chapter_date = (⟨2024, 3, 15⟩ : Date))).length = 1 ∧
    (generate_today_story true [ch0] [] false none ⟨2024, 3, 15⟩ ctx0 gen0 1 0).2 = [ch0] := by
  constructor
  · obtain ⟨ch, heq, -, hcount⟩ :=
      (C2_idempotent_generation [] [] none ⟨2024, 3, 15⟩ ctx0 gen0 1 0).2 rfl
    rw [congrArg Prod.snd heq]
    exact hcount
  · exact congrArg Prod.snd
      ((C2_idempotent_generation [ch0] [] none ⟨2024, 3, 15⟩ ctx0 gen0 1 0).1 ch0 (by decide))

/-! ### C1: the temporal window selector -/

/-- Unfolding of the two conditions the selection loop checks. -/
theorem eligible_iff (used : List Nat) (target prev : Date) (x : NewsItem) :
    eligible used target prev x = true ↔
      x.id ∉ used ∧
      (articleDateFromUrl x.article_url = some target ∨
       articleDateFromUrl x.article_url = some prev) := by
  unfold eligible
  cases hd : articleDateFromUrl x.article_url <;> simp [hd]

/-- The selection loop of `get_news_for_date` returns the first
`limit - cnt` eligible rows of its input, in input order, provided the
running count is still below the limit. -/
theorem selectLoop_eq_filter_take (used : List Nat) (target prev : Date)
    (limit : Nat) :
    ∀ (l : List NewsItem) (cnt : Nat), cnt < limit →
      selectLoop used target prev limit l cnt =
        (l.filter (eligible used target prev)).take (limit - cnt) := by
  intro l
  induction l with
  | nil => intro cnt _; simp [selectLoop]
  | cons x rest ih =>
    intro cnt hcnt
    by_cases hid : x.id ∈ used
    · have he : eligible used target prev x = false := by
        simp [eligible, hid]
      simp [selectLoop, hid, he, ih cnt hcnt]
    · cases hd : articleDateFromUrl x.article_url with
      | none =>
        have he : eligible used target prev x = false := by
          simp [eligible, hid, hd]
        simp [selectLoop, hid, hd, he, ih cnt hcnt]
      | some dd =>
        by_cases hdt : dd = target ∨ dd = prev
        · have he : eligible used target prev x = true := by
            simp [eligible, hid, hd, hdt]
          by_cases hlim : limit ≤ cnt + 1
          · have hl : limit - cnt = 1 := by omega
            simp [selectLoop, hid, hd, hdt, hlim, he, hl]
          · have hl : limit - cnt = (limit - (cnt + 1)) + 1 := by omega
            rw [hl]
            simp [selectLoop, hid, hd, hdt, hlim, he, ih (cnt + 1) (by omega)]
        · have he : eligible used target prev x = false := by
            simp only [eligible, hd]
            simp [hdt, not_or.mp hdt]
          simp [selectLoop, hid, hd, hdt, he, ih cnt hcnt]

/-- C1 counterexample: with `limit = 0` the loop appends a matching row
before checking the break condition, so one item is returned — more than the
requested limit. -/
theorem C1_counterexample :
    ¬ ((get_news_for_date [sampleItem 1] [] ⟨2024, 3, 15⟩ ⟨2024, 3, 15⟩ 0).length ≤ 0) := by
  decide

/-- C1 amended: for every positive limit, `get_news_for_date` returns the
first `limit` rows — in publish-time-descending pool order, the pool being
the 50 most recent rows — whose link-derived date is the target date or the
previous day and whose id was not used by any chapter of the trailing 7-day
window; in particular at most `limit` rows, none already used, each dated to
the 2-day window.  (For `limit = 0` the code returns up to one row, see the
counterexample.) -/
theorem C1_window_selector (store : List NewsItem) (chapters : List StoryChapter)
    (today target : Date) (limit : Nat) (hlim : 1 ≤ limit) :
    get_news_for_date store chapters today target limit =
      (((sortByPubDesc store).take 50).filter
          (eligible (recentlyUsedIds chapters today 7) target (prevDay target))).take limit ∧
    (get_news_for_date store chapters today target limit).length ≤ limit ∧
    ∀ x ∈ get_news_for_date store chapters today target limit,
      (articleDateFromUrl x.article_url = some target ∨
       articleDateFromUrl x.article_url = some (prevDay target)) ∧
      x.id ∉ recentlyUsedIds chapters today 7 ∧
      ∀ c ∈ chapters, dateLE (subDays today 7) c.chapter_date = true →
        x.id ∉ c.used_news_item_ids := by
  have hmain : get_news_for_date store chapters today target limit =
      (((sortByPubDesc store).take 50).filter
          (eligible (recentlyUsedIds chapters today 7) target (prevDay target))).take limit := by
    unfold get_news_for_date
    rw [selectLoop_eq_filter_take _ _ _ _ _ 0 (by omega), Nat.sub_zero]
  refine ⟨hmain, ?_, ?_⟩
  · rw [hmain]
    exact List.length_take_le limit _
  · intro x hx
    rw [hmain] at hx
    have hx2 := List.mem_of_mem_take hx
    have he := (List.mem_filter.mp hx2).2
    obtain ⟨hused, hdate⟩ := (eligible_iff _ _ _ _).mp he
    refine ⟨hdate, hused, ?_⟩
    intro c hc hwin hxmem
    apply hused
    unfold recentlyUsedIds
    exact List.mem_flatMap.mpr ⟨c, List.mem_filter.mpr ⟨hc, hwin⟩, hxmem⟩

/-- Witness for C1 at a concrete positive limit. -/
theorem C1_witness :
    (get_news_for_date [sampleItem 1] [] ⟨2024, 3, 15⟩ ⟨2024, 3, 15⟩ 1).length ≤ 1 :=
  (C1_window_selector [sampleItem 1] [] ⟨2024, 3, 15⟩ ⟨2024, 3, 15⟩ 1 (by decide)).2.1

/-! ### C9: the refresh behaviour of the upsert on an existing URL -/

/-- C9 counterexample: a subsequent sighting that carries no author does not
refresh the stored author field — the old value is kept, so the upsert does
not unconditionally refresh the author. -/
theorem C9_counterexample :
    ¬ (∀ x ∈ (upsertOne ⟨⟨2024, 3, 15⟩, 60⟩ sightingNoAuthor [storedWithAuthor] 7).2.1,
         x.author = sightingNoAuthor.author) := by
  decide

/-- C9 amended: on a subsequent sighting of a stored source URL the upsert
refreshes headline and summary unconditionally, refreshes the publish
timestamp when the sighting provides one and the author only when the
sighting provides a non-empty author (keeping the old value otherwise), and
bumps the fetch timestamp; the record's identity, article_url and
category_label stay unchanged, every row of the store survives (nothing is
deleted), and no new id is allocated. -/
theorem C9_upsert_refresh (store : List NewsItem) (now : DateTime) (a : Article)
    (x : NewsItem) (n : Nat) (h : findByUrl a.article_url store = [x]) :
    (upsertOne now a store n).2.2 = n ∧
    (upsertOne now a store n).2.1.length = store.length ∧
    (upsertOne now a store n).2.1.map (fun y => y.id) = store.map (fun y => y.id) ∧
    (upsertOne now a store n).2.1.map (fun y => y.article_url) =
      store.map (fun y => y.article_url) ∧
    (upsertOne now a store n).2.1.map (fun y => y.category_label) =
      store.map (fun y => y.category_label) ∧
    (upsertOne now a store n).1 = some (mergeItem now a x) ∧
    mergeItem now a x ∈ (upsertOne now a store n).2.1 ∧
    (mergeItem now a x).id = x.id ∧
    (mergeItem now a x).article_url = x.article_url ∧
    (mergeItem now a x).category_label = x.category_label ∧
    (mergeItem now a x).headline = a.headline ∧
    (mergeItem now a x).summary = a.summary ∧
    (mergeItem now a x).fetched_at = now ∧
    (∀ p, a.published_at = some p → (mergeItem now a x).published_at = some p) ∧
    (∀ v, a.author = some v → v ≠ "" → (mergeItem now a x).author = some v) ∧
    (a.author = none → (mergeItem now a x).author = x.author) := by
  have hxmem : x ∈ store ∧ x.article_url = a.article_url := by
    have : x ∈ findByUrl a.article_url store := by rw [h]; exact List.mem_singleton_self x
    have := List.mem_filter.mp this
    exact ⟨this.1, by simpa using this.2⟩
  have hu : upsertOne now a store n =
      (some (mergeItem now a x), replaceMerged now a store, n) := by
    unfold upsertOne
    rw [h]
  rw [hu]
  refine ⟨rfl, by simp [replaceMerged], ?_, ?_, ?_, rfl, ?_, rfl, rfl, rfl, rfl, rfl, rfl,
         ?_, ?_, ?_⟩
  · unfold replaceMerged
    rw [List.map_map]
    refine List.map_congr_left ?_
    intro y _
    by_cases hc : y.article_url = a.article_url <;> simp [hc, mergeItem]
  · unfold replaceMerged
    rw [List.map_map]
    refine List.map_congr_left ?_
    intro y _
    by_cases hc : y.article_url = a.article_url <;> simp [hc, mergeItem]
  · unfold replaceMerged
    rw [List.map_map]
    refine List.map_congr_left ?_
    intro y _
    by_cases hc : y.article_url = a.article_url <;> simp [hc, mergeItem]
  · unfold replaceMerged
    exact List.mem_map.mpr ⟨x, hxmem.1, by rw [if_pos hxmem.2]⟩
  · intro p hp
    simp [mergeItem, hp]
  · intro v hv hne
    simp [mergeItem, hv, hne]
  · intro hv
    simp [mergeItem, hv]

/-- Witness for C9 at a concrete store and sighting that does carry an
author. -/
theorem C9_witness :
    (upsertOne ⟨⟨2024, 3, 15⟩, 60⟩ sightingWithAuthor [storedWithAuthor] 7).2.2 = 7 ∧
    (mergeItem ⟨⟨2024, 3, 15⟩, 60⟩ sightingWithAuthor storedWithAuthor).author = some "Bob" := by
  obtain ⟨h1, -, -, -, -, -, -, -, -, -, -, -, -, -, hauth, -⟩ :=
    C9_upsert_refresh [storedWithAuthor] ⟨⟨2024, 3, 15⟩, 60⟩ sightingWithAuthor
      storedWithAuthor 7 (by decide)
  exact ⟨h1, hauth "Bob" rfl (by decide)⟩

/-! ### C3: ingestion is idempotent over an unchanged feed

The development tracks stores up to their `fetched_at` columns
(`NewsItem.strip`) and shows that a second pass over the same article list
only rewrites fetch timestamps: after the first pass every article is
`absorbs`-ed by the store, and upserting an absorbed article is a no-op on
the stripped view. -/

/-- Merging and stripping commute. -/
theorem strip_mergeItem (now : DateTime) (a : Article) (x : NewsItem) :
    (mergeItem now a x).strip = stripMerge a x.strip := by
  cases ha : a.author <;> cases hp : a.published_at <;>
    simp [mergeItem, stripMerge, NewsItem.strip, ha, hp]

/-- Merging leaves the URL unchanged. -/
theorem mergeItem_url (now : DateTime) (a : Article) (x : NewsItem) :
    (mergeItem now a x).article_url = x.article_url := rfl

/-- The stripped merge is idempotent. -/
theorem stripMerge_idem (a : Article) (s : StrippedItem) :
    stripMerge a (stripMerge a s) = stripMerge a s := by
  cases ha : a.author with
  | none => cases hp : a.published_at <;> simp [stripMerge, ha, hp]
  | some v =>
    by_cases hv : v = "" <;> cases hp : a.published_at <;>
      simp [stripMerge, ha, hp, hv]

/-- A freshly created row already absorbs its article. -/
theorem stripMerge_mkNewsItem (now : DateTime) (a : Article) (n : Nat) :
    stripMerge a (mkNewsItem now a n).strip = (mkNewsItem now a n).strip := by
  cases ha : a.author with
  | none => cases hp : a.published_at <;>
      simp [stripMerge, mkNewsItem, NewsItem.strip, ha, hp]
  | some v =>
    by_cases hv : v = "" <;> cases hp : a.published_at <;>
      simp [stripMerge, mkNewsItem, NewsItem.strip, ha, hp, hv]

/-- `findByUrl` distributes over append. -/
theorem findByUrl_append (u : String) (s t : List NewsItem) :
    findByUrl u (s ++ t) = findByUrl u s ++ findByUrl u t :=
  List.filter_append s t

/-- `findByUrl` commutes with a URL-preserving map. -/
theorem findByUrl_map (f : NewsItem → NewsItem)
    (hf : ∀ y, (f y).article_url = y.article_url) (u : String)
    (store : List NewsItem) :
    findByUrl u (store.map f) = (findByUrl u store).map f := by
  induction store with
  | nil => rfl
  | cons x xs ih =>
    simp only [findByUrl, List.filter_cons, List.map_cons] at ih ⊢
    rw [hf x]
    by_cases hc : x.article_url = u
    · simp [hc, ih]
    · simp [hc, ih]

/-- An empty `findByUrl` result means the URL is absent from the store. -/
theorem findByUrl_eq_nil (u : String) (store : List NewsItem)
    (h : findByUrl u store = []) : ∀ x ∈ store, x.article_url ≠ u := by
  intro x hx
  have := List.filter_eq_nil_iff.mp h x hx
  simpa using this

/-- A store without URL duplicates matches a URL at most once. -/
theorem NodupUrls.findByUrl_len (u : String) :
    ∀ store : List NewsItem, NodupUrls store → (findByUrl u store).length ≤ 1 := by
  intro store
  induction store with
  | nil => intro _; simp [findByUrl]
  | cons x xs ih =>
    intro h
    obtain ⟨hx, hxs⟩ := List.nodup_cons.mp h
    by_cases hc : x.article_url = u
    · have hnil : findByUrl u xs = [] := by
        by_contra hne
        obtain ⟨y, hy⟩ := List.exists_mem_of_ne_nil _ hne
        have hy2 := List.mem_filter.mp hy
        have hyu : y.article_url = u := by simpa using hy2.2
        exact hx (List.mem_map.mpr ⟨y, hy2.1, by simp only [hyu, hc]⟩)
      unfold findByUrl at hnil ⊢
      simp [List.filter_cons, hc, hnil]
    · simpa [findByUrl, List.filter_cons, hc] using ih hxs

/-- The in-place update leaves the URL column of the store unchanged. -/
theorem replaceMerged_urls (now : DateTime) (a : Article) (store : List NewsItem) :
    (replaceMerged now a store).map (fun y => y.article_url) =
      store.map (fun y => y.article_url) := by
  unfold replaceMerged
  rw [List.map_map]
  refine List.map_congr_left ?_
  intro y _
  by_cases hc : y.article_url = a.article_url <;> simp [hc, mergeItem]

/-- The create branch of the upsert, as an equation. -/
theorem upsertOne_create (now : DateTime) (a : Article) (store : List NewsItem)
    (n : Nat) (h : findByUrl a.article_url store = []) :
    upsertOne now a store n =
      (some (mkNewsItem now a n), store ++ [mkNewsItem now a n], n + 1) := by
  unfold upsertOne
  rw [h]

/-- The update branch of the upsert, as an equation. -/
theorem upsertOne_merge (now : DateTime) (a : Article) (store : List NewsItem)
    (n : Nat) (x : NewsItem) (h : findByUrl a.article_url store = [x]) :
    upsertOne now a store n =
      (some (mergeItem now a x), replaceMerged now a store, n) := by
  unfold upsertOne
  rw [h]

/-- The upsert preserves URL uniqueness of the store. -/
theorem upsertOne_nodup (now : DateTime) (a : Article) (store : List NewsItem)
    (n : Nat) (h : NodupUrls store) : NodupUrls (upsertOne now a store n).2.1 := by
  unfold upsertOne
  split
  · rename_i hnil
    unfold NodupUrls at h ⊢
    rw [List.map_append]
    rw [List.nodup_append]
    refine ⟨h, List.nodup_singleton _, ?_⟩
    intro v hv hv2
    have : v = a.article_url := by simpa [mkNewsItem] using hv2
    subst this
    obtain ⟨y, hy, hyu⟩ := List.mem_map.mp hv
    exact absurd hyu (findByUrl_eq_nil _ _ hnil y hy)
  · unfold NodupUrls at h ⊢
    rw [replaceMerged_urls]
    exact h
  · exact h

/-- Upserting an article does not disturb the rows carrying other URLs. -/
theorem upsertOne_frame (now : DateTime) (a : Article) (store : List NewsItem)
    (n : Nat) (u : String) (hne : u ≠ a.article_url) :
    findByUrl u (upsertOne now a store n).2.1 = findByUrl u store := by
  unfold upsertOne
  split
  · rw [findByUrl_append]
    have hone : findByUrl u [mkNewsItem now a n] = [] := by
      have hne2 : (mkNewsItem now a n).article_url ≠ u := fun h => hne h.symm
      simp [findByUrl, List.filter_cons, hne2]
    rw [hone, List.append_nil]
  · unfold replaceMerged
    rw [findByUrl_map _ (fun y => by
          by_cases hc : y.article_url = a.article_url <;> simp [hc, mergeItem]) u]
    have hfix : ∀ y ∈ findByUrl u store,
        (if y.article_url = a.article_url then mergeItem now a y else y) = y := by
      intro y hy
      have hyu : y.article_url = u := by
        simpa using (List.mem_filter.mp hy).2
      exact if_neg (fun hh => hne (hyu.symm.trans hh))
    simpa using List.map_congr_left hfix
  · rfl

/-- After upserting `a` into a URL-unique store, the store absorbs `a`. -/
theorem upsertOne_absorbs_self (now : DateTime) (a : Article) (store : List NewsItem)
    (n : Nat) (h : NodupUrls store) : absorbs (upsertOne now a store n).2.1 a := by
  rcases hf : findByUrl a.article_url store with - | ⟨x, rest⟩
  · rw [upsertOne_create now a store n hf]
    unfold absorbs
    rw [findByUrl_append, hf]
    have hone : findByUrl a.article_url [mkNewsItem now a n] = [mkNewsItem now a n] := by
      unfold findByUrl
      simp [mkNewsItem]
    rw [List.nil_append, hone]
    exact stripMerge_mkNewsItem now a n
  · rcases rest with - | ⟨y, rest2⟩
    · rw [upsertOne_merge now a store n x hf]
      unfold absorbs
      unfold replaceMerged
      rw [findByUrl_map _ (fun y => by
            by_cases hc : y.article_url = a.article_url <;> simp [hc, mergeItem]) _]
      rw [hf]
      have hxu : x.article_url = a.article_url := by
        have : x ∈ findByUrl a.article_url store := by
          rw [hf]; exact List.mem_singleton_self x
        simpa using (List.mem_filter.mp this).2
      simp only [List.map_cons, List.map_nil, if_pos hxu]
      rw [strip_mergeItem]
      exact stripMerge_idem a x.strip
    · exfalso
      have := NodupUrls.findByUrl_len a.article_url store h
      rw [hf] at this
      simp at this

/-- Upserting an article the store already absorbs changes nothing on the
stripped view and allocates no id. -/
theorem upsertOne_absorbed (now : DateTime) (a : Article) (store : List NewsItem)
    (n : Nat) (h : absorbs store a) :
    (upsertOne now a store n).2.1.map NewsItem.strip = store.map NewsItem.strip ∧
    (upsertOne now a store n).2.2 = n := by
  unfold absorbs at h
  rcases hf : findByUrl a.article_url store with - | ⟨x, rest⟩
  · rw [hf] at h
    exact h.elim
  · rcases rest with - | ⟨y, rest2⟩
    · rw [hf] at h
      have hx : stripMerge a x.strip = x.strip := h
      rw [upsertOne_merge now a store n x hf]
      refine ⟨?_, rfl⟩
      unfold replaceMerged
      rw [List.map_map]
      refine List.map_congr_left ?_
      intro z hz
      simp only [Function.comp_apply]
      by_cases hc : z.article_url = a.article_url
      · have hz2 : z = x := by
          have hmem : z ∈ findByUrl a.article_url store :=
            List.mem_filter.mpr ⟨hz, by simp [hc]⟩
          rw [hf] at hmem
          simpa using hmem
        subst hz2
        rw [if_pos hc, strip_mergeItem]
        exact hx
      · rw [if_neg hc]
    · rw [hf] at h
      exact h.elim

/-- `findByUrl` is determined by the stripped view of the store. -/
theorem findByUrl_strip_congr (u : String) :
    ∀ (s t : List NewsItem), t.map NewsItem.strip = s.map NewsItem.strip →
      (findByUrl u t).map NewsItem.strip = (findByUrl u s).map NewsItem.strip := by
  intro s
  induction s with
  | nil =>
    intro t h
    have ht : t = [] := by simpa using h
    subst ht
    rfl
  | cons x xs ih =>
    intro t h
    cases t with
    | nil => simp at h
    | cons y ys =>
      simp only [List.map_cons, List.cons.injEq] at h
      obtain ⟨h1, h2⟩ := h
      have hurl : y.article_url = x.article_url := by
        have := congrArg StrippedItem.article_url h1
        simpa [NewsItem.strip] using this
      unfold findByUrl
      simp only [List.filter_cons]
      rw [hurl]
      by_cases hc : x.article_url = u
      · simp only [hc, decide_True, if_true, List.map_cons, List.cons.injEq]
        exact ⟨h1, ih ys h2⟩
      · simp [hc]
        exact ih ys h2

/-- Absorption only looks at the rows carrying the article's URL. -/
theorem absorbs_of_findByUrl_eq (a : Article) (s t : List NewsItem)
    (h : findByUrl a.article_url t = findByUrl a.article_url s)
    (ha : absorbs s a) : absorbs t a := by
  unfold absorbs at ha ⊢
  rw [h]
  exact ha

/-- Absorption is determined by the stripped view of the store. -/
theorem absorbs_of_strip_eq (a : Article) (s t : List NewsItem)
    (h : t.map NewsItem.strip = s.map NewsItem.strip)
    (ha : absorbs s a) : absorbs t a := by
  unfold absorbs at ha ⊢
  have hcong := findByUrl_strip_congr a.article_url s t h
  rcases hf : findByUrl a.article_url s with - | ⟨x, rest⟩
  · rw [hf] at ha
    exact ha.elim
  · rcases rest with - | ⟨y, rest2⟩
    · rw [hf] at ha hcong
      have hx : stripMerge a x.strip = x.strip := ha
      rcases hft : findByUrl a.article_url t with - | ⟨z, zrest⟩
      · rw [hft] at hcong
        simp at hcong
      · rcases zrest with - | ⟨w, wrest⟩
        · rw [hft] at hcong
          have hz : z.strip = x.strip := by simpa using hcong
          show stripMerge a z.strip = z.strip
          rw [hz]
          exact hx
        · rw [hft] at hcong
          simp at hcong
    · rw [hf] at ha
      exact ha.elim

/-- The upsert loop preserves URL uniqueness. -/
theorem ingestList_nodup (now : DateTime) (as : List Article) :
    ∀ (store : List NewsItem) (n : Nat),
      NodupUrls store → NodupUrls (ingestList now as store n).2.1 := by
  induction as with
  | nil => intro store n h; exact h
  | cons a rest ih =>
    intro store n h
    exact ih (upsertOne now a store n).2.1 (upsertOne now a store n).2.2
      (upsertOne_nodup now a store n h)

/-- The upsert loop does not disturb rows whose URL no processed article
carries. -/
theorem ingestList_frame (now : DateTime) (u : String) (as : List Article) :
    ∀ (store : List NewsItem) (n : Nat), (∀ a ∈ as, u ≠ a.article_url) →
      findByUrl u (ingestList now as store n).2.1 = findByUrl u store := by
  induction as with
  | nil => intro store n _; rfl
  | cons a rest ih =>
    intro store n h
    have h1 : u ≠ a.article_url := h a (by simp)
    have h2 : ∀ b ∈ rest, u ≠ b.article_url := fun b hb => h b (by simp [hb])
    calc findByUrl u (ingestList now (a :: rest) store n).2.1
        = findByUrl u (upsertOne now a store n).2.1 :=
          ih (upsertOne now a store n).2.1 (upsertOne now a store n).2.2 h2
      _ = findByUrl u store := upsertOne_frame now a store n u h1

/-- After one pass over a duplicate-free article list, the store absorbs
every processed article. -/
theorem ingestList_absorbs (now : DateTime) (as : List Article) :
    ∀ (store : List NewsItem) (n : Nat),
      NodupUrls store → (as.map (fun a => a.article_url)).Nodup →
      ∀ a ∈ as, absorbs (ingestList now as store n).2.1 a := by
  induction as with
  | nil => intro store n _ _ a ha; simp at ha
  | cons b rest ih =>
    intro store n hstore hnd a ha
    obtain ⟨hb1, hb2⟩ := List.nodup_cons.mp hnd
    rcases List.mem_cons.mp ha with rfl | ha2
    · have habs : absorbs (upsertOne now a store n).2.1 a :=
        upsertOne_absorbs_self now a store n hstore
      have hfr : findByUrl a.article_url
            (ingestList now rest (upsertOne now a store n).2.1
              (upsertOne now a store n).2.2).2.1 =
          findByUrl a.article_url (upsertOne now a store n).2.1 := by
        apply ingestList_frame
        intro c hc hceq
        exact hb1 (List.mem_map.mpr ⟨c, hc, hceq.symm⟩)
      exact absorbs_of_findByUrl_eq a _ _ hfr habs
    · exact ih (upsertOne now b store n).2.1 (upsertOne now b store n).2.2
        (upsertOne_nodup now b store n hstore) hb2 a ha2

/-- A pass over articles the store already absorbs is a no-op on the
stripped view and allocates no ids. -/
theorem ingestList_absorbed (now : DateTime) (as : List Article) :
    ∀ (store : List NewsItem) (n : Nat), (∀ a ∈ as, absorbs store a) →
      (ingestList now as store n).2.1.map NewsItem.strip = store.map NewsItem.strip ∧
      (ingestList now as store n).2.2 = n := by
  induction as with
  | nil => intro store n _; exact ⟨rfl, rfl⟩
  | cons a rest ih =>
    intro store n h
    obtain ⟨hs, hn⟩ := upsertOne_absorbed now a store n (h a (by simp))
    have hrest : ∀ b ∈ rest, absorbs (upsertOne now a store n).2.1 b :=
      fun b hb => absorbs_of_strip_eq b store _ hs (h b (by simp [hb]))
    obtain ⟨hs2, hn2⟩ :=
      ih (upsertOne now a store n).2.1 (upsertOne now a store n).2.2 hrest
    exact ⟨hs2.trans hs, hn2.trans hn⟩

/-- C3: ingestion is idempotent.  Running
`fetch_and_update_ipswich_news` twice over an unchanged feed (whose accepted
candidates carry pairwise distinct source URLs, the candidate-key invariant)
leaves the store identical up to `fetched_at` columns: same rows, same
identifiers, same content, no duplicate row per source URL, and no new
surrogate id allocated by the second run. -/
theorem C3_ingestion_idempotent (feed : List RawItem) (today : Date)
    (now1 now2 : DateTime) (store : List NewsItem) (n : Nat)
    (hstore : NodupUrls store)
    (hfeed : ((parse_rss_feed today feed).map (fun a => a.article_url)).Nodup) :
    (fetch_and_update (some feed) false today now2
        (fetch_and_update (some feed) false today now1 store n).2.1
        (fetch_and_update (some feed) false today now1 store n).2.2).2.1.map NewsItem.strip =
      (fetch_and_update (some feed) false today now1 store n).2.1.map NewsItem.strip ∧
    (fetch_and_update (some feed) false today now2
        (fetch_and_update (some feed) false today now1 store n).2.1
        (fetch_and_update (some feed) false today now1 store n).2.2).2.2 =
      (fetch_and_update (some feed) false today now1 store n).2.2 ∧
    (fetch_and_update (some feed) false today now2
        (fetch_and_update (some feed) false today now1 store n).2.1
        (fetch_and_update (some feed) false today now1 store n).2.2).2.1.map (fun x => x.id) =
      (fetch_and_update (some feed) false today now1 store n).2.1.map (fun x => x.id) ∧
    NodupUrls (fetch_and_update (some feed) false today now1 store n).2.1 := by
  have habs : ∀ a ∈ parse_rss_feed today feed,
      absorbs (ingestList now1 (parse_rss_feed today feed) store n).2.1 a :=
    ingestList_absorbs now1 (parse_rss_feed today feed) store n hstore hfeed
  obtain ⟨hs, hn⟩ :=
    ingestList_absorbed now2 (parse_rss_feed today feed)
      (ingestList now1 (parse_rss_feed today feed) store n).2.1
      (ingestList now1 (parse_rss_feed today feed) store n).2.2 habs
  have hid : (ingestList now2 (parse_rss_feed today feed)
        (ingestList now1 (parse_rss_feed today feed) store n).2.1
        (ingestList now1 (parse_rss_feed today feed) store n).2.2).2.1.map
          (fun x => x.id) =
      (ingestList now1 (parse_rss_feed today feed) store n).2.1.map (fun x => x.id) := by
    have := congrArg (List.map StrippedItem.id) hs
    simpa [List.map_map, Function.comp] using this
  exact ⟨hs, hn, hid,
         ingestList_nodup now1 (parse_rss_feed today feed) store n hstore⟩

/-- Witness for C3 at a concrete feed and empty store. -/
theorem C3_witness :
    (fetch_and_update (some [itemToday]) false ⟨2024, 3, 15⟩ ⟨⟨2024, 3, 15⟩, 99⟩
        (fetch_and_update (some [itemToday]) false ⟨2024, 3, 15⟩ ⟨⟨2024, 3, 15⟩, 60⟩ [] 0).2.1
        (fetch_and_update (some [itemToday]) false ⟨2024, 3, 15⟩
            ⟨⟨2024, 3, 15⟩, 60⟩ [] 0).2.2).2.2 =
      (fetch_and_update (some [itemToday]) false ⟨2024, 3, 15⟩ ⟨⟨2024, 3, 15⟩, 60⟩ [] 0).2.2 :=
  (C3_ingestion_idempotent [itemToday] ⟨2024, 3, 15⟩ ⟨⟨2024, 3, 15⟩, 60⟩
    ⟨⟨2024, 3, 15⟩, 99⟩ [] 0 (by simp [NodupUrls]) (by decide)).2.1

end StoryWeaver
